import Mathlib

/-! # G'MIC command-line front end (`src/gmic_cli.cpp`)

A shallow embedding of `main`: the translation of the argument vector into the
item list and the command line handed to the interpreter, the validation of the
start-up files, the script-file mode, the initial verbosity and the handling of
a failure of the interpreter run.

C strings are lists of characters without their terminating NUL; a pointer into
a C string is the suffix it points at.  `args` is `argv[1..argc-1]`, so
`argc = args.length + 1`.  Calls into the interpreter and the image library
(`gmic::run`, `gmic::add_commands`, `CImg::load_raw`, ...) are not part of the
file; their outcomes are fields of `Externals`.  The signal handler and the
creation of the resources folder are not embedded.
-/

set_option autoImplicit false

namespace GmicCli

/-- C strings and `CImg<char>` buffers. -/
abbrev Str := List Char

/-- The terminating zero of a C string. -/
def NUL : Char := Char.ofNat 0

/-- The double quote character. -/
def QUOTE : Char := Char.ofNat 34

/-- The C string held by a buffer: the characters before the first zero. -/
def c_str (buf : Str) : Str := buf.takeWhile (fun c => c != NUL)

/-! ## C library -/

/-- Function `isspace` in the C locale. -/
def is_space (c : Char) : Bool :=
  c == ' ' || c == '\t' || c == '\n' || c == Char.ofNat 11 || c == Char.ofNat 12 || c == '\r'

/-- Function `std::strstr(s,p)`: the suffix of `s` that starts at the first
occurrence of `p`, or `none` for a null pointer. -/
def strstr : Str → Str → Option Str
  | [], p => if p.isEmpty then some [] else none
  | c :: s, p => if p.isPrefixOf (c :: s) then some (c :: s) else strstr s p

/-- Function `std::strchr(s,c)!=0`. -/
def strchr (s : Str) (c : Char) : Bool := s.contains c

/-- Test `!std::strcmp(a,b)`. -/
def strcmp_eq (a b : Str) : Bool := a == b

/-- Test `!std::strncmp(p,s,n)`: the first `n` characters agree, the comparison
stopping at a zero.  The end of the list `s` is the end of an item buffer that
carries no terminator; a character of `p` compared there finds no equal. -/
def strncmp_eq : Str → Str → Nat → Bool
  | _, _, 0 => true
  | [], [], _ + 1 => true
  | [], b :: _, _ + 1 => b == NUL
  | _ :: _, [], _ + 1 => false
  | a :: p, b :: s, n + 1 => a == b && (a == NUL || strncmp_eq p s n)

/-- Value of a run of decimal digits. -/
def digits_value (ds : Str) : Nat :=
  ds.foldl (fun acc d => 10 * acc + (d.toNat - 48)) 0

/-- Result of `strtol` on a numeral of value `v`: saturation at the range of a
64-bit `long`. -/
def to_long (v : Int) : Int :=
  if v < -9223372036854775808 then -9223372036854775808
  else if 9223372036854775807 < v then 9223372036854775807 else v

/-- Conversion to a 32-bit `int`: the value modulo `2^32`, in `[-2^31, 2^31)`. -/
def to_int (v : Int) : Int := (v + 2147483648) % 4294967296 - 2147483648

/-- Conversion `%d` of `sscanf`: white space is skipped, then an optional sign
and at least one decimal digit are read.  The result is the `int` stored and the
rest of the input, or `none` when no number is there.  A numeral that does not
fit an `int`, which the C standard leaves undefined, is stored as the GNU C
library does: converted by `strtol` and truncated to 32 bits. -/
def scan_d (s : Str) : Option (Int × Str) :=
  let s1 := s.dropWhile is_space
  let neg : Bool := match s1 with
    | c :: _ => c == '-'
    | [] => false
  let s2 : Str := match s1 with
    | c :: t => if c == '-' || c == '+' then t else s1
    | [] => s1
  let ds := s2.takeWhile Char.isDigit
  if ds.isEmpty then none
  else
    let v : Int := if neg then -(digits_value ds : Int) else (digits_value ds : Int)
    some (to_int (to_long v), s2.dropWhile Char.isDigit)

/-- Call `std::sscanf(s,"%d%c",&v,&sep)`: the number of items assigned and the
`int` stored by `%d`, if any.  Where C returns `EOF` (input exhausted before the
first conversion) the count is `0`; `main` only compares the result with `1`. -/
def sscanf_d_c (s : Str) : Nat × Option Int :=
  match scan_d s with
  | none => (0, none)
  | some (v, []) => (1, some v)
  | some (v, _ :: _) => (2, some v)

/-- Call `std::sscanf(s,"*** %d%c",&v,&sep)`: three literal stars, any white
space, then as `sscanf_d_c`. -/
def sscanf_stars_d_c (s : Str) : Nat × Option Int :=
  match s with
  | '*' :: '*' :: '*' :: t => sscanf_d_c (t.dropWhile is_space)
  | _ => (0, none)

/-- Call `cimg_sscanf(buf," #@gmi%c",&sep)`: white space is skipped, the five
characters `#@gmi` are matched and one more character is stored.  The result is
the number of items assigned and the character stored. -/
def sscanf_gmi_c (buf : Str) : Nat × Option Char :=
  match (c_str buf).dropWhile is_space with
  | '#' :: '@' :: 'g' :: 'm' :: 'i' :: c :: _ => (1, some c)
  | _ => (0, none)

/-- Call `cimg_snprintf(buf,size,...)` on the fully formatted text: the buffer
keeps at most `size - 1` characters. -/
def cimg_snprintf (size : Nat) (formatted : Str) : Str := formatted.take (size - 1)

/-! ## Image library -/

/-- Call `CImg<char>::string(str,is_last_zero)`. -/
def cimg_string (str : Str) (is_last_zero : Bool) : Str :=
  if is_last_zero then str ++ [NUL] else str

/-- Assignment `img.back() = c`. -/
def set_back (img : Str) (c : Char) : Str := img.dropLast ++ [c]

/-- Assignment `items.back().back() = c`. -/
def set_back_back (items : List Str) (c : Char) : List Str :=
  match items.getLast? with
  | none => items
  | some img => items.dropLast ++ [set_back img c]

/-- Call `items.insert(img,pos)` for `pos <= items.width()`. -/
def insert_at (items : List Str) (img : Str) (pos : Nat) : List Str :=
  items.take pos ++ img :: items.drop pos

/-! ## Outcomes of the calls `main` makes outside this file -/

/-- What the pre-scan of a script file leaves behind: the flag written through
the last argument of `gi.add_commands`, the result of `gmic::search_sorted` for
`_main_` and the cell `gi.commands_has_arguments[hash](ind,0)` read as `bool`. -/
structure Prescan where
  allow_entrypoint : Bool
  main_found : Bool
  main_has_arguments : Bool
deriving DecidableEq, Repr

/-- A `gmic_exception`: its message `what()` and its command name `command()`. -/
structure GmicException where
  what : Str
  command : Str
deriving DecidableEq, Repr

/-- Outcome of `gmic_instance.run`: normal return, or a `gmic_exception`
together with `gmic_instance.status` (`none` for an empty status) and
`gmic_instance.verbosity` as the run left them. -/
inductive RunOutcome
  | success
  | failure (e : GmicException) (status : Option Str) (verbosity : Int)
deriving DecidableEq, Repr

/-- Everything `main` obtains from outside the file.  A load that throws is
`none`; an `add_commands` that throws is `true` in the matching field (the
`unroll` and `resize` before it are taken to succeed). -/
structure Externals where
  path_rc : Str
  gmic_version : Nat
  path_user : Str
  load_cimg_update : Option Str
  load_raw_update : Option Str
  add_commands_update_throws : Bool
  load_raw_user : Option Str
  add_commands_user_throws : Bool
  split_filename : Str → Str
  fopen_ok : Bool
  prescan : Option Prescan
  getenv_verbosity : Option Str
  allow_entrypoint0 : Bool
  verbosity0 : Int
  run : Str → Bool → Int → RunOutcome
  help_lookup_throws : Bool
  help_fallback_throws : Bool
  beyond_empty_literal : Str

/-! ## Start-up files (lines 113-143) -/

/-- Buffer `filename_update` after the `cimg_snprintf` of line 120. -/
def filename_update (x : Externals) : Str :=
  cimg_snprintf 1024 (x.path_rc ++ "update".toList ++ (Nat.repr x.gmic_version).toList ++ ".gmic".toList)

/-- Image `commands_update` after lines 122-126: the structured load, else the
raw load, else the empty image. -/
def commands_update (x : Externals) : Str :=
  match x.load_cimg_update with
  | some c => c
  | none =>
    match x.load_raw_update with
    | some c => c
    | none => []

/-- Flag `is_invalid_updatefile` after line 132.  The buffer scanned is the
content followed by the zero that `resize` appended. -/
def is_invalid_updatefile (x : Externals) : Bool :=
  let commands_update := commands_update x
  let flag : Bool := if !commands_update.isEmpty then x.add_commands_update_throws else false
  let r := sscanf_gmi_c (commands_update ++ [NUL])
  flag || (!commands_update.isEmpty && (r.1 != 1 || r.2 != some 'c'))

/-- Image `commands_user` after lines 137-138. -/
def commands_user (x : Externals) : Str :=
  match x.load_raw_user with
  | some c => c
  | none => []

/-- Flag `is_invalid_userfile` after line 142. -/
def is_invalid_userfile (x : Externals) : Bool :=
  if !(commands_user x).isEmpty then x.add_commands_user_throws else false

/-! ## Argument translator (lines 145-157 and 190-211) -/

/-- One turn of the loop of lines 150-157 for the argument `a`. -/
def split_step (items : List Str) (a : Str) : List Str :=
  let items1 :=
    if strchr a ' ' then items ++ [[QUOTE], a, cimg_string [QUOTE] true]
    else items ++ [cimg_string a true]
  set_back_back items1 ' '

/-- List `items` after lines 146-157. -/
def initial_items (args : List Str) : List Str :=
  if args.isEmpty then [cimg_string "l[] cli_noarg onfail done".toList true]
  else args.foldl split_step []

/-- Flag `is_first_item_verbose` of lines 191-193. -/
def is_first_item_verbose (items : List Str) : Bool :=
  decide (items.length > 1) &&
    (strncmp_eq "-v ".toList (items.headD []) 3 || strncmp_eq "v ".toList (items.headD []) 2 ||
     strncmp_eq "-verbose ".toList (items.headD []) 9 || strncmp_eq "verbose ".toList (items.headD []) 8)

/-- The start-up marker `CImg<char>::string("cli_start , ",false)`. -/
def cli_start : Str := cimg_string "cli_start , ".toList false

/-- Warning item of lines 197-200 for the user file. -/
def warn_userfile (filename_user : Str) : Str :=
  cimg_string (cimg_snprintf 1024
    ("warn \"File \x27\"\x7b/\"".toList ++ filename_user ++
      "\"\x7d\"\x27 is not a valid G\x27MIC command file.\" ".toList)) false

/-- Warning item of lines 203-206 for the update file. -/
def warn_updatefile (filename_update : Str) : Str :=
  cimg_string (cimg_snprintf 1024
    ("warn \"File \x27\"\x7b/\"".toList ++ filename_update ++
      "\"\x7d\"\x27 is not a valid G\x27MIC update file.\" ".toList)) false

/-- List `items` after lines 190-207. -/
def final_items (x : Externals) (args : List Str) : List Str :=
  let items := initial_items args
  let is_first_item_verbose := is_first_item_verbose items
  let pos := if is_first_item_verbose then 2 else 0
  let items := insert_at items cli_start pos
  let items := if is_invalid_userfile x then insert_at items (warn_userfile x.path_user) pos else items
  let items := if is_invalid_updatefile x then insert_at items (warn_updatefile (filename_update x)) pos else items
  items

/-- Buffer `commands_line` after lines 209-210: the items appended along `x`,
the last character overwritten by the terminating zero. -/
def commands_line (x : Externals) (args : List Str) : Str :=
  set_back (final_items x args).flatten NUL

/-! ## Script-file mode (lines 159-179) -/

/-- Field `gmic_instance.allow_entrypoint` after lines 159-179, or `none` when
the exception of `gi.add_commands` leaves `main`: the call stands in no `try`
block. -/
def script_file_mode (x : Externals) (args : List Str) : Option Bool :=
  let argc := args.length + 1
  if argc == 2 || argc == 3 then
    let ext := x.split_filename (args.headD [])
    if ext.isEmpty || strcmp_eq ext "gmic".toList then
      if x.fopen_ok then
        match x.prescan with
        | none => none
        | some gi =>
          let allow_entrypoint := gi.allow_entrypoint
          let allow_entrypoint :=
            if allow_entrypoint && argc == 3 then
              if gi.main_found then gi.main_has_arguments else allow_entrypoint
            else allow_entrypoint
          some allow_entrypoint
      else some x.allow_entrypoint0
    else some x.allow_entrypoint0
  else some x.allow_entrypoint0

/-! ## Initial verbosity (lines 181-187) -/

/-- Field `gmic_instance.verbosity` after lines 182-187, for `argc >= 2`. -/
def initial_verbosity (s_verbosity : Option Str) (verbosity0 : Int) (allow_entrypoint : Bool)
    (args : List Str) : Int :=
  let argc := args.length + 1
  let argv1 := args.headD []
  let by_shape : Int :=
    if allow_entrypoint then 0
    else if (argc == 2 || argc == 3) &&
        (strcmp_eq argv1 "help".toList || strcmp_eq argv1 "-help".toList ||
         strcmp_eq argv1 "h".toList || strcmp_eq argv1 "-h".toList) then 0
    else if argc == 2 && (strcmp_eq argv1 "version".toList || strcmp_eq argv1 "-version".toList) then 0
    else 1
  match s_verbosity with
  | none => by_shape
  | some s =>
    let r := sscanf_d_c s
    if r.1 != 1 then by_shape else r.2.getD verbosity0

/-! ## Failure of the run (lines 218-266) -/

/-- What the handler writes and which disposable interpreters it starts. -/
inductive Event
  | error_message (what : Str)
  | description_header (command : Str)
  | help_lookup (tmp_line : Str)
  | help_fallback (tmp_line : Str)
  | blank_lines
deriving DecidableEq, Repr

/-- How `main` ends: by `return code`, or by an exception that leaves it. -/
inductive Outcome
  | returned (code : Int)
  | escaped
deriving DecidableEq, Repr

/-- Variables `error_code` and `is_error_code` after lines 219-226.  For an
empty status `it1` is the literal `""` and `it1 + 3` lies outside it: what is read
there is `beyond`. -/
def error_code_of (status : Option Str) (beyond : Str) : Int × Bool :=
  let it2 : Option Str :=
    match status with
    | some s =>
      match strstr s "***".toList with
      | some it1 => strstr (it1.drop 3) "***".toList
      | none => none
    | none => strstr beyond "***".toList
  match it2 with
  | some p =>
    let r := sscanf_stars_d_c p
    if r.1 != 1 then (-1, false) else (r.2.getD 0, true)
  | none => (0, true)

/-- Command line of the contextual help lookup (lines 245-251). -/
def help_line (filename_update filename_user command : Str) : Str :=
  cimg_snprintf 1024
    ("l[] i raw:\"".toList ++ filename_update ++ "\",char m \"".toList ++ filename_update ++
      "\" onfail rm done l[] i raw:\"".toList ++ filename_user ++ "\",char m \"".toList ++
      filename_user ++ "\" onfail rm done rv help \"".toList ++ command ++ "\",0".toList)

/-- Command line of the baseline help (line 255). -/
def fallback_line (command : Str) : Str :=
  cimg_snprintf 1024 ("help \"".toList ++ command ++ "\"".toList)

/-- Handler of lines 218-266. -/
def handle_failure (x : Externals) (e : GmicException) (status : Option Str) (verbosity : Int) :
    List Event × Outcome :=
  let c := error_code_of status x.beyond_empty_literal
  let error_code := c.1
  let is_error_code := c.2
  if !is_error_code then
    let shown : List Event := if verbosity ≤ 0 then [Event.error_message e.what] else []
    if !e.command.isEmpty then
      let tried := shown ++ [Event.description_header e.command,
        Event.help_lookup (help_line (filename_update x) x.path_user e.command)]
      if x.help_lookup_throws then
        let again := tried ++ [Event.help_fallback (fallback_line e.command)]
        if x.help_fallback_throws then (again, Outcome.escaped)
        else (again, Outcome.returned error_code)
      else (tried, Outcome.returned error_code)
    else (shown ++ [Event.blank_lines], Outcome.returned error_code)
  else ([], Outcome.returned error_code)

/-! ## Main entry -/

/-- Outcome of the call `gmic_instance.run` of line 217, or `none` when an
exception leaves `main` before that line. -/
def run_outcome (x : Externals) (args : List Str) : Option RunOutcome :=
  let allow : Option Bool := if args.isEmpty then some x.allow_entrypoint0 else script_file_mode x args
  match allow with
  | none => none
  | some allow_entrypoint =>
    let verbosity :=
      if args.isEmpty then x.verbosity0
      else initial_verbosity x.getenv_verbosity x.verbosity0 allow_entrypoint args
    some (x.run (commands_line x args) allow_entrypoint verbosity)

/-- Function `main`: what the failure handler did, and how `main` ended. -/
def main (x : Externals) (args : List Str) : List Event × Outcome :=
  match run_outcome x args with
  | none => ([], Outcome.escaped)
  | some RunOutcome.success => ([], Outcome.returned 0)
  | some (RunOutcome.failure e status v) => handle_failure x e status v

/-! ## Vocabulary of the specification -/

/-- Value of the numeral made of the sign text `sg` and the digits `ds`. -/
def numeral_value (sg ds : Str) : Int :=
  if sg = ['-'] then -(digits_value ds : Int) else (digits_value ds : Int)

/-- The text begins with an integer as C reads one: after white space, an
optional sign and then a decimal digit. -/
def begins_with_integer (s : Str) : Bool :=
  match s.dropWhile is_space with
  | [] => false
  | c :: t =>
    if c == '-' || c == '+' then
      match t with
      | d :: _ => d.isDigit
      | [] => false
    else c.isDigit

/-- Items of one argument: quote, argument, quote and separator when it holds a
space, else the argument and its separator. -/
def items_of_arg (a : Str) : List Str :=
  if strchr a ' ' then [[QUOTE], a, [QUOTE, ' ']] else [a ++ [' ']]

/-- Warning directives injected for the start-up files, in script order. -/
def warning_items (x : Externals) : List Str :=
  (if is_invalid_updatefile x then [warn_updatefile (filename_update x)] else []) ++
    (if is_invalid_userfile x then [warn_userfile x.path_user] else [])

/-- Position in `items` at which the marker and the warnings are inserted. -/
def insert_pos (args : List Str) : Nat :=
  if is_first_item_verbose (initial_items args) then 2 else 0

/-- Items of the assembled list other than the injected ones: those before the
insertion position and those after the injected run. -/
def token_items (x : Externals) (args : List Str) : List Str :=
  (final_items x args).take (insert_pos args) ++
    (final_items x args).drop (insert_pos args + ((warning_items x).length + 1))

/-- The first argument is one of the verbosity tokens, written exactly so. -/
def is_verbosity_token (a : Str) : Bool :=
  a == "-v".toList || a == "v".toList || a == "-verbose".toList || a == "verbose".toList

/-- The first argument is a verbosity token when letter case and one leading
dash are ignored. -/
def is_verbosity_token_nocase (a : Str) : Bool :=
  let b := (match a with
    | '-' :: t => t
    | _ => a).map Char.toLower
  b == "v".toList || b == "verbose".toList

/-- A run in which nothing outside `main` fails and no start-up file exists. -/
def quiet : Externals where
  path_rc := "/rc/".toList
  gmic_version := 290
  path_user := "/home/.gmic".toList
  load_cimg_update := none
  load_raw_update := none
  add_commands_update_throws := false
  load_raw_user := none
  add_commands_user_throws := false
  split_filename := fun _ => "png".toList
  fopen_ok := false
  prescan := some ⟨false, false, false⟩
  getenv_verbosity := none
  allow_entrypoint0 := false
  verbosity0 := 0
  run := fun _ _ _ => RunOutcome.success
  help_lookup_throws := false
  help_fallback_throws := false
  beyond_empty_literal := []

/-! ## Lemmas on the C library functions -/

theorem stars_toList : "***".toList = ['*', '*', '*'] := rfl

theorem digit_not_space {c : Char} (h : c.isDigit = true) : is_space c = false := by
  cases hs : is_space c with
  | false => rfl
  | true =>
    exfalso
    simp only [is_space, Bool.or_eq_true, beq_iff_eq] at hs
    rcases hs with ((((h1 | h1) | h1) | h1) | h1) | h1 <;> subst h1 <;> revert h <;> decide

theorem digit_not_minus {c : Char} (h : c.isDigit = true) : (c == '-') = false := by
  cases hs : (c == '-') with
  | false => rfl
  | true =>
    exfalso
    rw [beq_iff_eq] at hs
    subst hs; revert h; decide

theorem digit_not_plus {c : Char} (h : c.isDigit = true) : (c == '+') = false := by
  cases hs : (c == '+') with
  | false => rfl
  | true =>
    exfalso
    rw [beq_iff_eq] at hs
    subst hs; revert h; decide

theorem dropWhile_space_append (ws rest : Str) (hws : ∀ c ∈ ws, is_space c = true)
    (hrest : rest.dropWhile is_space = rest) : (ws ++ rest).dropWhile is_space = rest := by
  induction ws with
  | nil => simpa using hrest
  | cons c ws ih =>
    have hc : is_space c = true := hws c (List.mem_cons_self _ _)
    simp only [List.cons_append, List.dropWhile_cons, hc, if_true]
    exact ih (fun d hd => hws d (List.mem_cons_of_mem _ hd))

theorem takeWhile_digits (ds : Str) (h : ∀ c ∈ ds, c.isDigit = true) :
    ds.takeWhile Char.isDigit = ds := by
  induction ds with
  | nil => rfl
  | cons c ds ih =>
    have hc : c.isDigit = true := h c (List.mem_cons_self _ _)
    simp only [List.takeWhile_cons, hc, if_true]
    rw [ih (fun d hd => h d (List.mem_cons_of_mem _ hd))]

theorem dropWhile_digits (ds : Str) (h : ∀ c ∈ ds, c.isDigit = true) :
    ds.dropWhile Char.isDigit = [] := by
  induction ds with
  | nil => rfl
  | cons c ds ih =>
    have hc : c.isDigit = true := h c (List.mem_cons_self _ _)
    simp only [List.dropWhile_cons, hc, if_true]
    exact ih (fun d hd => h d (List.mem_cons_of_mem _ hd))

theorem to_int_to_long (v : Int) (h1 : -2147483648 ≤ v) (h2 : v ≤ 2147483647) :
    to_int (to_long v) = v := by
  unfold to_int to_long
  rw [if_neg (by omega), if_neg (by omega)]
  omega


theorem scan_d_numeral (ws sg ds : Str) (hws : ∀ c ∈ ws, is_space c = true)
    (hsg : sg = [] ∨ sg = ['+'] ∨ sg = ['-'])
    (hne : ds ≠ []) (hds : ∀ c ∈ ds, c.isDigit = true) :
    scan_d (ws ++ (sg ++ ds)) = some (to_int (to_long (numeral_value sg ds)), []) := by
  obtain ⟨d, ds', rfl⟩ := List.exists_cons_of_ne_nil hne
  have hd : d.isDigit = true := hds d (List.mem_cons_self _ _)
  have htw := takeWhile_digits (d :: ds') hds
  have hdw := dropWhile_digits (d :: ds') hds
  have hs1 : (ws ++ (sg ++ d :: ds')).dropWhile is_space = sg ++ d :: ds' := by
    apply dropWhile_space_append _ _ hws
    rcases hsg with rfl | rfl | rfl
    · simp [List.dropWhile_cons, digit_not_space hd]
    · have : is_space '+' = false := by decide
      simp [List.dropWhile_cons, this]
    · have : is_space '-' = false := by decide
      simp [List.dropWhile_cons, this]
  unfold scan_d
  simp only [hs1]
  rcases hsg with rfl | rfl | rfl
  · simp only [List.nil_append, digit_not_minus hd, digit_not_plus hd, Bool.or_self,
      Bool.false_eq_true, if_false, htw, hdw, numeral_value]
    simp
  · simp only [List.singleton_append, numeral_value]
    simp [htw, hdw]
  · simp only [List.singleton_append, numeral_value]
    simp [htw, hdw]



theorem dropWhile_space_numeral (ws sg ds : Str) (hws : ∀ c ∈ ws, is_space c = true)
    (hsg : sg = [] ∨ sg = ['+'] ∨ sg = ['-'])
    (hne : ds ≠ []) (hds : ∀ c ∈ ds, c.isDigit = true) :
    (ws ++ (sg ++ ds)).dropWhile is_space = sg ++ ds := by
  obtain ⟨d, ds', rfl⟩ := List.exists_cons_of_ne_nil hne
  have hd : d.isDigit = true := hds d (List.mem_cons_self _ _)
  apply dropWhile_space_append _ _ hws
  rcases hsg with rfl | rfl | rfl
  · simp [List.dropWhile_cons, digit_not_space hd]
  · have : is_space '+' = false := by decide
    simp [List.dropWhile_cons, this]
  · have : is_space '-' = false := by decide
    simp [List.dropWhile_cons, this]

theorem sscanf_d_c_numeral (ws sg ds : Str) (hws : ∀ c ∈ ws, is_space c = true)
    (hsg : sg = [] ∨ sg = ['+'] ∨ sg = ['-'])
    (hne : ds ≠ []) (hds : ∀ c ∈ ds, c.isDigit = true) :
    sscanf_d_c (ws ++ (sg ++ ds)) = (1, some (to_int (to_long (numeral_value sg ds)))) := by
  unfold sscanf_d_c
  rw [scan_d_numeral ws sg ds hws hsg hne hds]

theorem strstr_first (a r : Str) (h : ¬ ['*', '*', '*'] <:+: a ++ ['*', '*']) :
    strstr (a ++ '*' :: '*' :: '*' :: r) "***".toList = some ('*' :: '*' :: '*' :: r) := by
  induction a with
  | nil => simp [strstr, stars_toList]
  | cons c a ih =>
    have hpre : List.isPrefixOf ['*', '*', '*'] (c :: (a ++ '*' :: '*' :: '*' :: r)) = false := by
      cases hp : List.isPrefixOf ['*', '*', '*'] (c :: (a ++ '*' :: '*' :: '*' :: r)) with
      | false => rfl
      | true =>
        exfalso
        apply h
        match a, hp with
        | [], hp =>
          simp at hp
          subst hp
          exact ⟨[], [], rfl⟩
        | [x], hp =>
          simp at hp
          obtain ⟨rfl, rfl⟩ := hp
          exact ⟨[], ['*'], rfl⟩
        | x :: y :: a2, hp =>
          simp at hp
          obtain ⟨rfl, rfl, rfl⟩ := hp
          exact ⟨[], a2 ++ ['*', '*'], rfl⟩
    have h2 : ¬ ['*', '*', '*'] <:+: a ++ ['*', '*'] := by
      intro hin
      apply h
      obtain ⟨s, t, hst⟩ := hin
      exact ⟨c :: s, t, by simp [← hst]⟩
    rw [List.cons_append, strstr, stars_toList, hpre]
    simpa [stars_toList] using ih h2

theorem error_code_of_numeral (beyond a b ws sg ds : Str)
    (ha : ¬ ['*', '*', '*'] <:+: a ++ ['*', '*']) (hb : ¬ ['*', '*', '*'] <:+: b ++ ['*', '*'])
    (hws : ∀ c ∈ ws, is_space c = true) (hsg : sg = [] ∨ sg = ['+'] ∨ sg = ['-'])
    (hne : ds ≠ []) (hds : ∀ c ∈ ds, c.isDigit = true) :
    error_code_of (some (a ++ ("***".toList ++ (b ++ ("***".toList ++ (ws ++ (sg ++ ds)))))))
      beyond = (to_int (to_long (numeral_value sg ds)), true) := by
  unfold error_code_of
  simp only [stars_toList, List.cons_append, List.nil_append]
  rw [show strstr (a ++ '*' :: '*' :: '*' :: (b ++ '*' :: '*' :: '*' :: (ws ++ (sg ++ ds)))) ['*', '*', '*']
      = some ('*' :: '*' :: '*' :: (b ++ '*' :: '*' :: '*' :: (ws ++ (sg ++ ds)))) from by
        simpa [stars_toList] using strstr_first a _ ha]
  simp only [List.drop_succ_cons, List.drop_zero]
  rw [show strstr (b ++ '*' :: '*' :: '*' :: (ws ++ (sg ++ ds))) ['*', '*', '*']
      = some ('*' :: '*' :: '*' :: (ws ++ (sg ++ ds))) from by
        simpa [stars_toList] using strstr_first b _ hb]
  simp only [sscanf_stars_d_c, dropWhile_space_numeral ws sg ds hws hsg hne hds]
  have := sscanf_d_c_numeral [] sg ds (by simp) hsg hne hds
  simp only [List.nil_append] at this
  rw [this]
  simp

theorem main_of_run_failure (x : Externals) (args : List Str) (e : GmicException)
    (status : Option Str) (v : Int)
    (hrun : run_outcome x args = some (RunOutcome.failure e status v)) :
    main x args = handle_failure x e status v := by
  unfold main
  rw [hrun]

/-! ## Lemmas on the item list -/

theorem split_step_eq (items : List Str) (a : Str) :
    split_step items a = items ++ items_of_arg a := by
  unfold split_step items_of_arg
  by_cases h : strchr a ' ' = true
  · simp only [h, if_true]
    have e : items ++ [[QUOTE], a, cimg_string [QUOTE] true] =
        (items ++ [[QUOTE], a]) ++ [cimg_string [QUOTE] true] := by simp
    rw [e]
    simp [set_back_back, set_back, cimg_string]
  · simp only [h]
    simp [set_back_back, set_back, cimg_string]

theorem foldl_split_step (args : List Str) (items : List Str) :
    args.foldl split_step items = items ++ (args.map items_of_arg).flatten := by
  induction args generalizing items with
  | nil => simp
  | cons a args ih => simp [List.foldl_cons, ih, split_step_eq]

theorem initial_items_cons (a : Str) (args : List Str) :
    initial_items (a :: args) = items_of_arg a ++ ((args.map items_of_arg).flatten) := by
  simp [initial_items, foldl_split_step, split_step_eq]

theorem items_of_arg_ne_nil (a : Str) : items_of_arg a ≠ [] := by
  unfold items_of_arg
  split <;> simp

theorem insert_at_length (pre post : List Str) (w : Str) :
    insert_at (pre ++ post) w pre.length = pre ++ w :: post := by
  simp [insert_at]

theorem final_items_split (x : Externals) (args : List Str) (pre post : List Str)
    (h : initial_items args = pre ++ post) (hp : pre.length = insert_pos args) :
    final_items x args = pre ++ (warning_items x ++ cli_start :: post) := by
  unfold final_items warning_items
  have hp2 : (if is_first_item_verbose (initial_items args) = true then 2 else 0) = pre.length := by
    rw [hp]; rfl
  rw [h] at hp2
  simp only [h, hp2]
  rw [insert_at_length]
  by_cases hu : is_invalid_userfile x = true <;> by_cases hd : is_invalid_updatefile x = true <;>
    simp [hu, hd, insert_at_length]

theorem insert_pos_le (args : List Str) : insert_pos args ≤ (initial_items args).length := by
  unfold insert_pos
  by_cases h : is_first_item_verbose (initial_items args) = true
  · simp only [h, if_true]
    unfold is_first_item_verbose at h
    simp only [Bool.and_eq_true, decide_eq_true_eq] at h
    omega
  · simp [h]

theorem final_items_eq (x : Externals) (args : List Str) :
    final_items x args = (initial_items args).take (insert_pos args) ++
      (warning_items x ++ cli_start :: (initial_items args).drop (insert_pos args)) := by
  apply final_items_split
  · simp
  · simp [insert_pos_le]

theorem token_items_eq (x : Externals) (args : List Str) :
    token_items x args = initial_items args := by
  unfold token_items
  have hl : ((initial_items args).take (insert_pos args)).length = insert_pos args := by
    simp [insert_pos_le]
  rw [final_items_eq]
  rw [List.take_left' hl]
  have e : insert_pos args + ((warning_items x).length + 1) =
      ((initial_items args).take (insert_pos args)).length +
        (warning_items x ++ [cli_start]).length := by
    simp [insert_pos_le]
  rw [e, List.drop_append]
  have e2 : warning_items x ++ cli_start :: List.drop (insert_pos args) (initial_items args) =
      (warning_items x ++ [cli_start]) ++ List.drop (insert_pos args) (initial_items args) := by simp
  rw [e2, List.drop_left, List.take_append_drop]

theorem strchr_false_iff (a : Str) (c : Char) : strchr a c = false ↔ c ∉ a := by
  unfold strchr
  simp

theorem strncmp_eq_cons (a b : Char) (p s : Str) (n : Nat) :
    strncmp_eq (a :: p) (b :: s) (n + 1) = (a == b && (a == NUL || strncmp_eq p s n)) := rfl

theorem items_of_arg_no_space (a : Str) (h : ' ' ∉ a) : items_of_arg a = [a ++ [' ']] := by
  unfold items_of_arg
  rw [(strchr_false_iff a ' ').2 h]
  simp

theorem strncmp_eq_token (p a : Str) (hnul : NUL ∉ p) (hsp : ' ' ∉ p) (ha : ' ' ∉ a) :
    strncmp_eq (p ++ [' ']) (a ++ [' ']) (p.length + 1) = true ↔ a = p := by
  induction p generalizing a with
  | nil =>
    cases a with
    | nil => simp [strncmp_eq]
    | cons c a =>
      have hc : ' ' ≠ c := fun h => ha (h ▸ List.mem_cons_self _ _)
      simp [strncmp_eq, hc]
  | cons q p ih =>
    have hq : q ≠ ' ' := fun h => hsp (h ▸ List.mem_cons_self _ _)
    have hq0 : q ≠ NUL := fun h => hnul (h ▸ List.mem_cons_self _ _)
    cases a with
    | nil => simp [strncmp_eq, hq]
    | cons c a =>
      have ih2 := ih a (fun h => hnul (List.mem_cons_of_mem _ h))
        (fun h => hsp (List.mem_cons_of_mem _ h)) (fun h => ha (List.mem_cons_of_mem _ h))
      rw [List.cons_append, List.cons_append, List.length_cons, strncmp_eq_cons]
      simp only [Bool.and_eq_true, beq_iff_eq, Bool.or_eq_true, hq0, false_or, ih2,
        List.cons.injEq]
      constructor
      · rintro ⟨rfl, rfl⟩; exact ⟨rfl, rfl⟩
      · rintro ⟨rfl, rfl⟩; exact ⟨rfl, rfl⟩

theorem first_item_token (a : Str) (ha : ' ' ∉ a) :
    (strncmp_eq "-v ".toList (a ++ [' ']) 3 || strncmp_eq "v ".toList (a ++ [' ']) 2 ||
      strncmp_eq "-verbose ".toList (a ++ [' ']) 9 || strncmp_eq "verbose ".toList (a ++ [' ']) 8)
      = is_verbosity_token a := by
  have h1 := strncmp_eq_token "-v".toList a (by decide) (by decide) ha
  have h2 := strncmp_eq_token "v".toList a (by decide) (by decide) ha
  have h3 := strncmp_eq_token "-verbose".toList a (by decide) (by decide) ha
  have h4 := strncmp_eq_token "verbose".toList a (by decide) (by decide) ha
  have e1 : "-v ".toList = "-v".toList ++ [' '] := rfl
  have e2 : "v ".toList = "v".toList ++ [' '] := rfl
  have e3 : "-verbose ".toList = "-verbose".toList ++ [' '] := rfl
  have e4 : "verbose ".toList = "verbose".toList ++ [' '] := rfl
  have l1 : ("-v".toList).length + 1 = 3 := rfl
  have l2 : ("v".toList).length + 1 = 2 := rfl
  have l3 : ("-verbose".toList).length + 1 = 9 := rfl
  have l4 : ("verbose".toList).length + 1 = 8 := rfl
  rw [l1] at h1; rw [l2] at h2; rw [l3] at h3; rw [l4] at h4
  rw [e1, e2, e3, e4]
  unfold is_verbosity_token
  rw [Bool.eq_iff_iff]
  simp only [Bool.or_eq_true, h1, h2, h3, h4, beq_iff_eq]

theorem verbosity_token_no_space (a : Str) (h : is_verbosity_token a = true) : ' ' ∉ a := by
  unfold is_verbosity_token at h
  simp only [Bool.or_eq_true, beq_iff_eq] at h
  rcases h with ((h | h) | h) | h <;> subst h <;> decide

theorem is_first_item_verbose_iff (a : Str) (args : List Str) :
    is_first_item_verbose (initial_items (a :: args)) = true ↔
      (args ≠ [] ∧ is_verbosity_token a = true) := by
  rw [initial_items_cons]
  by_cases hs : strchr a ' ' = true
  · have hna : is_verbosity_token a = false := by
      cases hv : is_verbosity_token a with
      | false => rfl
      | true =>
        have := verbosity_token_no_space a hv
        rw [← strchr_false_iff] at this
        rw [this] at hs
        exact absurd hs (by decide)
    have hq : (strncmp_eq "-v ".toList [QUOTE] 3 || strncmp_eq "v ".toList [QUOTE] 2 ||
      strncmp_eq "-verbose ".toList [QUOTE] 9 || strncmp_eq "verbose ".toList [QUOTE] 8) = false := by
      decide
    simp only [items_of_arg, hs, if_true, is_first_item_verbose, List.cons_append, List.headD_cons,
      hq, Bool.and_false, hna]
    simp
  · have hs2 : strchr a ' ' = false := by simpa using hs
    have ha : ' ' ∉ a := (strchr_false_iff a ' ').1 hs2
    rw [items_of_arg_no_space a ha]
    simp only [is_first_item_verbose, List.singleton_append, List.headD_cons,
      first_item_token a ha, Bool.and_eq_true, decide_eq_true_eq, List.length_cons]
    constructor
    · rintro ⟨hl, hv⟩
      refine ⟨?_, hv⟩
      rintro rfl
      simp at hl
    · rintro ⟨hn, hv⟩
      refine ⟨?_, hv⟩
      obtain ⟨b, rest, rfl⟩ := List.exists_cons_of_ne_nil hn
      have := items_of_arg_ne_nil b
      have hpos : 0 < (items_of_arg b).length := List.length_pos.2 this
      simp only [List.map_cons, List.flatten_cons, List.length_append]
      omega

theorem flatten_spaced (a : Str) (args : List Str) :
    (((a :: args).map (fun t => [t ++ [' ']])).flatten).flatten =
      List.intercalate [' '] (a :: args) ++ [' '] := by
  induction args generalizing a with
  | nil => simp [List.intercalate]
  | cons b args ih =>
    have := ih b
    simp only [List.map_cons, List.flatten_cons, List.singleton_append] at this ⊢
    rw [this]
    simp [List.intercalate, List.intersperse]

theorem round_trip (args : List Str) (hne : args ≠ []) (hsp : ∀ a ∈ args, ' ' ∉ a) :
    List.splitOn ' ' ((initial_items args).flatten.dropLast) = args := by
  obtain ⟨a, rest, rfl⟩ := List.exists_cons_of_ne_nil hne
  have hmap : (a :: rest).map items_of_arg = (a :: rest).map (fun t => [t ++ [' ']]) := by
    apply List.map_congr_left
    intro t ht
    exact items_of_arg_no_space t (hsp t ht)
  have hinit : initial_items (a :: rest) = ((a :: rest).map items_of_arg).flatten := by
    rw [initial_items_cons]; simp
  rw [hinit, hmap, flatten_spaced, List.dropLast_concat]
  exact List.splitOn_intercalate (a :: rest) ' ' hsp (by simp)

theorem scan_d_none (s : Str) (h : begins_with_integer s = false) : scan_d s = none := by
  unfold begins_with_integer at h
  unfold scan_d
  cases hs : s.dropWhile is_space with
  | nil => simp
  | cons c t =>
    rw [hs] at h
    simp only at h
    by_cases hc : (c == '-' || c == '+') = true
    · simp only [hc, if_true] at h
      cases t with
      | nil => simp [hc]
      | cons d t2 =>
        simp only at h
        simp [hc, List.takeWhile_cons, h]
    · simp only [hc] at h
      simp only [Bool.not_eq_true] at hc
      simp at h
      simp [hc, List.takeWhile_cons, h]

/-! ## The claims -/

/-- C1 (code defect): a failure of the run whose status text has fewer than two
`***` ends `main` with exit code 0 and without any diagnostic, here for the
status texts `abc` and `*** abc`; the claim asks for exit code -1. -/
theorem C1_markerless_failure_exits_zero :
    main { quiet with run := fun _ _ _ =>
        RunOutcome.failure ⟨"msg".toList, "foo".toList⟩ (some "abc".toList) 1 } ["foo".toList]
      = ([], Outcome.returned 0) ∧
    main { quiet with run := fun _ _ _ =>
        RunOutcome.failure ⟨"msg".toList, "foo".toList⟩ (some "*** abc".toList) 1 } ["foo".toList]
      = ([], Outcome.returned 0) := by
  constructor <;> decide

/-- C2 (as stated, refuted): for the status text `*** a *** 2147483648` the
integer after the second marker is 2147483648, yet `main` returns -2147483648:
the exit code is an `int`. -/
theorem C2_counterexample_code_beyond_int :
    numeral_value [] "2147483648".toList = 2147483648 ∧
    (main { quiet with run := fun _ _ _ =>
        RunOutcome.failure ⟨"msg".toList, "foo".toList⟩ (some "*** a *** 2147483648".toList) 1 }
      ["foo".toList]).2 = Outcome.returned (-2147483648) := by
  constructor <;> decide

/-- C2 (amended): when the run fails with a status text `a *** b *** ws n`, the
two markers being the first `***` of the text and the first `***` after it, `ws`
white space and `n` a decimal numeral (optional sign, digits) ending the text
whose value fits a 32-bit `int`, `main` returns that value, prints nothing and
starts no help lookup. -/
theorem C2_status_code_is_exit_code (x : Externals) (args : List Str) (e : GmicException)
    (v : Int) (a b ws sg ds : Str)
    (hrun : run_outcome x args = some (RunOutcome.failure e
      (some (a ++ ("***".toList ++ (b ++ ("***".toList ++ (ws ++ (sg ++ ds))))))) v))
    (ha : ¬ "***".toList <:+: a ++ "**".toList) (hb : ¬ "***".toList <:+: b ++ "**".toList)
    (hws : ∀ c ∈ ws, is_space c = true) (hsg : sg = [] ∨ sg = ['+'] ∨ sg = ['-'])
    (hne : ds ≠ []) (hds : ∀ c ∈ ds, c.isDigit = true)
    (hlo : -2147483648 ≤ numeral_value sg ds) (hhi : numeral_value sg ds ≤ 2147483647) :
    main x args = ([], Outcome.returned (numeral_value sg ds)) := by
  rw [main_of_run_failure x args e _ v hrun]
  unfold handle_failure
  rw [error_code_of_numeral x.beyond_empty_literal a b ws sg ds ha hb hws hsg hne hds,
    to_int_to_long _ hlo hhi]
  simp

/-- Witness of C2: the status text `*** a *** 12` gives exit code 12. -/
theorem C2_status_code_is_exit_code_witness :
    main { quiet with run := fun _ _ _ =>
        RunOutcome.failure ⟨"msg".toList, "foo".toList⟩ (some "*** a *** 12".toList) 1 }
      ["foo".toList] = ([], Outcome.returned (numeral_value [] "12".toList)) :=
  C2_status_code_is_exit_code _ ["foo".toList] ⟨"msg".toList, "foo".toList⟩ 1
    [] " a ".toList " ".toList [] "12".toList (by decide) (by decide) (by decide) (by decide)
    (by decide) (by decide) (by decide) (by decide) (by decide)

/-- C3 (code defect): for the arguments `v` and `a b` the marker is inserted at
item position 2, between the opening quote and the argument: the command line is
`v "cli_start , a b"` and does not contain `"a b"`. -/
theorem C3_marker_splits_quoted_argument :
    commands_line quiet ["v".toList, "a b".toList] = "v \"cli_start , a b\"".toList ++ [NUL] ∧
    ¬ (QUOTE :: "a b".toList ++ [QUOTE]) <:+: commands_line quiet ["v".toList, "a b".toList] := by
  constructor <;> decide

/-- C4: for a non-empty argument vector without a space in any argument, the
assembled item list holds the injected directives (warnings, then the marker)
as one run at the insertion position, and the other items, concatenated, taken
without the last separator and split on the space character, are the argument
vector. -/
theorem C4_token_items_round_trip (x : Externals) (args : List Str) (hne : args ≠ [])
    (hsp : ∀ a ∈ args, ' ' ∉ a) :
    ((final_items x args).drop (insert_pos args)).take ((warning_items x).length + 1)
        = warning_items x ++ [cli_start] ∧
    List.splitOn ' ' ((token_items x args).flatten.dropLast) = args := by
  constructor
  · have hl : ((initial_items args).take (insert_pos args)).length = insert_pos args := by
      simp [insert_pos_le]
    rw [final_items_eq, List.drop_left' hl]
    have e2 : warning_items x ++ cli_start :: List.drop (insert_pos args) (initial_items args) =
        (warning_items x ++ [cli_start]) ++ List.drop (insert_pos args) (initial_items args) := by
      simp
    rw [e2]
    exact List.take_left' (by simp)
  · rw [token_items_eq]
    exact round_trip args hne hsp

/-- Witness of C4: the arguments `-v`, `3`, `blur`. -/
theorem C4_token_items_round_trip_witness :
    ((final_items quiet ["-v".toList, "3".toList, "blur".toList]).drop
        (insert_pos ["-v".toList, "3".toList, "blur".toList])).take ((warning_items quiet).length + 1)
        = warning_items quiet ++ [cli_start] ∧
    List.splitOn ' ' ((token_items quiet ["-v".toList, "3".toList, "blur".toList]).flatten.dropLast)
      = ["-v".toList, "3".toList, "blur".toList] :=
  C4_token_items_round_trip quiet ["-v".toList, "3".toList, "blur".toList] (by decide) (by decide)

/-- C5 (as stated, refuted): with `GMIC_VERBOSITY` set to `3x`, the integer 3
followed by one character, the verbosity for the argument `foo` is 1, not 3. -/
theorem C5_counterexample_trailing_character :
    initial_verbosity (some "3x".toList) 0 false ["foo".toList] = 1 ∧
    initial_verbosity (some "3x".toList) 0 false ["foo".toList] ≠ numeral_value [] "3".toList := by
  constructor <;> decide

/-- C5 (amended): when `GMIC_VERBOSITY` holds a decimal numeral (white space
before it allowed, optional sign, digits) with nothing after it, and its value
fits a 32-bit `int`, the verbosity is that value, whatever the arguments and the
entry-point permission. -/
theorem C5_environment_integer_is_verbosity (v0 : Int) (allow : Bool) (args : List Str)
    (ws sg ds : Str)
    (hws : ∀ c ∈ ws, is_space c = true) (hsg : sg = [] ∨ sg = ['+'] ∨ sg = ['-'])
    (hne : ds ≠ []) (hds : ∀ c ∈ ds, c.isDigit = true)
    (hlo : -2147483648 ≤ numeral_value sg ds) (hhi : numeral_value sg ds ≤ 2147483647) :
    initial_verbosity (some (ws ++ (sg ++ ds))) v0 allow args = numeral_value sg ds := by
  unfold initial_verbosity
  simp only [sscanf_d_c_numeral ws sg ds hws hsg hne hds, to_int_to_long _ hlo hhi]
  simp

/-- Witness of C5: the variable set to ` -2` and the argument `help`. -/
theorem C5_environment_integer_is_verbosity_witness :
    initial_verbosity (some " -2".toList) 0 true ["help".toList] = numeral_value ['-'] "2".toList :=
  C5_environment_integer_is_verbosity 0 true ["help".toList] " ".toList ['-'] "2".toList
    (by decide) (by decide) (by decide) (by decide) (by decide) (by decide)

/-- C6: when `GMIC_VERBOSITY` is unset or its text does not begin with an
integer, the verbosity is 0 with the entry-point permission; otherwise 0 for 1
or 2 arguments the first of which is `help`, `-help`, `h` or `-h`; otherwise 0
for the single argument `version` or `-version`; otherwise 1.  The arguments
`help` with the variable unset give 0 whatever the permission is. -/
theorem C6_verbosity_by_invocation_shape (s_verbosity : Option Str) (v0 : Int) (allow : Bool)
    (a : Str) (rest : List Str)
    (henv : ∀ s, s_verbosity = some s → begins_with_integer s = false) :
    initial_verbosity s_verbosity v0 allow (a :: rest) =
      (if allow = true then 0
       else if ((a :: rest).length = 1 ∨ (a :: rest).length = 2) ∧
          (a = "help".toList ∨ a = "-help".toList ∨ a = "h".toList ∨ a = "-h".toList) then 0
       else if (a :: rest).length = 1 ∧ (a = "version".toList ∨ a = "-version".toList) then 0
       else 1) ∧
    ∀ found : Bool, initial_verbosity none v0 found ["help".toList] = 0 := by
  constructor
  · have hshape : ∀ r : Int, initial_verbosity s_verbosity v0 allow (a :: rest) = r ↔
        initial_verbosity none v0 allow (a :: rest) = r := by
      intro r
      cases hs : s_verbosity with
      | none => exact Iff.rfl
      | some s =>
        have h0 : sscanf_d_c s = (0, none) := by
          unfold sscanf_d_c
          rw [scan_d_none s (henv s hs)]
        simp [initial_verbosity, h0]
    rw [hshape]
    cases allow with
    | true => simp [initial_verbosity]
    | false =>
      have e1 : rest.length + 1 + 1 = 2 ↔ rest.length + 1 = 1 := by omega
      have e2 : rest.length + 1 + 1 = 3 ↔ rest.length + 1 = 2 := by omega
      simp only [initial_verbosity, strcmp_eq, List.length_cons, List.headD_cons, beq_iff_eq,
        Bool.false_eq_true, if_false, Bool.and_eq_true, Bool.or_eq_true, Nat.add_left_inj]
      simp only [or_assoc, e1, e2]
  · intro found
    cases found <;> simp [initial_verbosity, strcmp_eq]

/-- Witness of C6: the variable set to `debug` and the arguments `h`, `blur`. -/
theorem C6_verbosity_by_invocation_shape_witness :
    initial_verbosity (some "debug".toList) 0 false ["h".toList, "blur".toList] =
      (if false = true then 0
       else if (["h".toList, "blur".toList].length = 1 ∨ ["h".toList, "blur".toList].length = 2) ∧
          ("h".toList = "help".toList ∨ "h".toList = "-help".toList ∨ "h".toList = "h".toList ∨
            "h".toList = "-h".toList) then 0
       else if ["h".toList, "blur".toList].length = 1 ∧
          ("h".toList = "version".toList ∨ "h".toList = "-version".toList) then 0
       else 1) ∧
    ∀ found : Bool, initial_verbosity none 0 found ["help".toList] = 0 :=
  C6_verbosity_by_invocation_shape (some "debug".toList) 0 false "h".toList ["blur".toList]
    (by intro s hs; cases hs; decide)

/-- C7 (as stated, refuted): for the arguments `-verbose`, `x` the marker is the
third item, after `x`, not between the two; the first argument `V` is no
verbosity token for the code, the marker stays in front; and so it does for the
single argument `v`. -/
theorem C7_counterexample_marker_position :
    (final_items quiet ["-verbose".toList, "x".toList]
        = ["-verbose ".toList, "x ".toList, cli_start] ∧
      final_items quiet ["-verbose".toList, "x".toList]
        ≠ ["-verbose ".toList, cli_start, "x ".toList]) ∧
    (is_verbosity_token_nocase "V".toList = true ∧
      final_items quiet ["V".toList, "x".toList] = [cli_start, "V ".toList, "x ".toList]) ∧
    (is_verbosity_token_nocase "v".toList = true ∧
      final_items quiet ["v".toList] = [cli_start, "v ".toList]) := by
  refine ⟨⟨?_, ?_⟩, ⟨?_, ?_⟩, ⟨?_, ?_⟩⟩ <;> decide

/-- C7 (amended): when there are at least two arguments, the first is exactly
`-v`, `v`, `-verbose` or `verbose` and the second holds no space, the marker
`cli_start , ` stands after the verbosity token and its argument, preceded only
by the warning directives, and before every remaining item; when the first
argument is no such token or is the only one, the warnings and the marker stand
before every argument item.  A verbosity token followed by an argument that
holds a space is left out. -/
theorem C7_marker_after_verbosity_argument (x : Externals) (a : Str) (rest : List Str)
    (hplain : is_verbosity_token a = true → ∀ b, rest.head? = some b → ' ' ∉ b) :
    final_items x (a :: rest) =
      if rest ≠ [] ∧ is_verbosity_token a = true then
        (a ++ [' ']) :: (rest.headD [] ++ [' ']) ::
          (warning_items x ++ cli_start :: (initial_items (a :: rest)).drop 2)
      else warning_items x ++ cli_start :: initial_items (a :: rest) := by
  have h := final_items_eq x (a :: rest)
  have hv := is_first_item_verbose_iff a rest
  by_cases hc : rest ≠ [] ∧ is_verbosity_token a = true
  · rw [if_pos hc]
    have hp : insert_pos (a :: rest) = 2 := by
      unfold insert_pos
      rw [if_pos (hv.2 hc)]
    rw [hp] at h
    obtain ⟨b, rest2, rfl⟩ := List.exists_cons_of_ne_nil hc.1
    have hb : ' ' ∉ b := hplain hc.2 b rfl
    have ha : ' ' ∉ a := verbosity_token_no_space a hc.2
    have htake : (initial_items (a :: b :: rest2)).take 2 = [a ++ [' '], b ++ [' ']] := by
      rw [initial_items_cons, items_of_arg_no_space a ha]
      simp [items_of_arg_no_space b hb]
    rw [htake] at h
    simpa using h
  · rw [if_neg hc]
    have hp : insert_pos (a :: rest) = 0 := by
      unfold insert_pos
      rw [if_neg (fun hh => hc (hv.1 hh))]
    rw [hp] at h
    simpa using h

/-- Witness of C7: the arguments `-v`, `3`, `blur` give the items `-v `, `3 `,
the marker, `blur `. -/
theorem C7_marker_after_verbosity_argument_witness :
    final_items quiet ["-v".toList, "3".toList, "blur".toList] =
      ["-v ".toList, "3 ".toList, cli_start, "blur ".toList] := by
  rw [C7_marker_after_verbosity_argument quiet "-v".toList ["3".toList, "blur".toList]
    (by intro _ b hb; cases hb; decide)]
  decide

/-- C9: with exactly two arguments, an empty or `gmic` extension of the first,
the file opened and the pre-scan reporting `_main_` present, found among the
registered commands and without declared arguments, the entry-point permission
of the main interpreter is false. -/
theorem C9_entry_point_without_arguments (x : Externals) (a b : Str)
    (hext : x.split_filename a = [] ∨ x.split_filename a = "gmic".toList)
    (hopen : x.fopen_ok = true)
    (hscan : x.prescan = some ⟨true, true, false⟩) :
    script_file_mode x [a, b] = some false := by
  unfold script_file_mode
  rcases hext with h | h <;> simp [h, hopen, hscan, strcmp_eq]

/-- Witness of C9: the arguments `script.gmic`, `5`. -/
theorem C9_entry_point_without_arguments_witness :
    script_file_mode
      { quiet with
        split_filename := (fun _ => "gmic".toList),
        fopen_ok := true,
        prescan := some ⟨true, true, false⟩ }
      ["script.gmic".toList, "5".toList] = some false :=
  C9_entry_point_without_arguments _ "script.gmic".toList "5".toList
    (Or.inr rfl) rfl rfl

/-- C10 (code defect): a baseline help that fails after a failed help lookup
leaves `main` without an exit code, and so does a failing pre-scan of the script
file; the claim asks that neither failure escapes `main`. -/
theorem C10_failures_escape_main :
    (main { quiet with
        run := fun _ _ _ =>
          RunOutcome.failure ⟨"msg".toList, "foo".toList⟩ (some "*** a *** b".toList) 1,
        help_lookup_throws := true, help_fallback_throws := true } ["foo".toList]).2
      = Outcome.escaped ∧
    (main { quiet with split_filename := (fun _ => []), fopen_ok := true, prescan := none }
        ["foo".toList]).2 = Outcome.escaped := by
  constructor <;> decide

end GmicCli
